import Mathlib

/-!
Verification of the remote-execution engine of the drone-runner-digitalocean
repository against its natural-language specification.

The engine (`engine/engine_impl.go`) is shallowly embedded: byte strings are
`List Char`, machine integers are `Int`/`Nat`, external collaborators (the
platform provisioning API, the ssh/sftp transport, the remote filesystem)
are abstracted as explicit oracle parameters, and each stateful operation is
a pure function from its inputs and oracles to its results together with the
trace of remote-side effects it performed.

The script-generator helpers (`writeEnv`, `writeSecrets`, `writeEnviron`,
`writeWorkdir`) live in a utility file of the repository that is not part of
the provided sources; they are modelled from the specification's §4.2 and
validated against the repository's own unit tests (TestWriteSecrets,
TestWriteEnv, TestWriteWorkdir), which are part of the provided sources.
-/

namespace DOEngine

/-- Errors returned by Go functions, abstracted: an ssh exit error carrying an
exit status (the only kind the `*ssh.ExitError` type assertion in Run
matches), the two context errors, and any other error. -/
inductive GoError
  | exitError (status : Int)
  | canceled
  | deadlineExceeded
  | errMsg (msg : String)
deriving DecidableEq

/-- A secret staged into the step script: environment-variable name plus raw
byte value (engine data model). -/
structure Secret where
  Env : List Char
  Data : List Char
deriving DecidableEq

/-- Concatenation of a list of byte strings. -/
def concatAll (l : List (List Char)) : List Char := l.foldr (· ++ ·) []

/-- Modelled from the spec: the script generator's per-variable emitter (the
repository's `writeEnv` utility, absent from the provided sources). The POSIX
family emits `export KEY="VALUE"` and the Windows family emits
`$Env:KEY = "VALUE"`, each followed by a newline; the raw value is placed
between double quotes with no escaping (spec §4.2 and the open question in
§9). -/
def writeEnv (os : String) (key value : List Char) : List Char :=
  if os = "windows" then
    "$Env:".toList ++ key ++ " = \"".toList ++ value ++ "\"\n".toList
  else
    "export ".toList ++ key ++ "=\"".toList ++ value ++ "\"\n".toList

/-- Modelled from the spec: `writeSecrets` iterates the secret list in list
order and emits one line per secret through the same per-variable emitter as
`writeEnviron` (spec §4.2). -/
def writeSecrets (os : String) (secrets : List Secret) : List Char :=
  concatAll (secrets.map (fun s => writeEnv os s.Env s.Data))

/-- Byte-wise lexicographic comparison of keys, giving the environment map a
deterministic iteration order. -/
def keyLE : List Char → List Char → Bool
  | [], _ => true
  | _ :: _, [] => false
  | a :: as, b :: bs => if a = b then keyLE as bs else decide (a < b)

/-- Insertion into a key-sorted association list. -/
def insertByKey (kv : List Char × List Char) :
    List (List Char × List Char) → List (List Char × List Char)
  | [] => [kv]
  | x :: xs => if keyLE kv.1 x.1 then kv :: x :: xs else x :: insertByKey kv xs

/-- Stable sort of an association list by key. -/
def sortByKey (l : List (List Char × List Char)) : List (List Char × List Char) :=
  l.foldr insertByKey []

/-- Modelled from the spec: `writeEnviron` iterates the environment map in a
deterministic order (stable sort of the keys) and emits one line per entry
through the same per-variable emitter as `writeSecrets` (spec §4.2). -/
def writeEnviron (os : String) (envs : List (List Char × List Char)) : List Char :=
  concatAll ((sortByKey envs).map (fun kv => writeEnv os kv.1 kv.2))

/-- Modelled from the spec: `writeWorkdir` emits a change-directory statement
`cd <path>` followed by a newline (spec §4.2). -/
def writeWorkdir (path : List Char) : List Char :=
  "cd ".toList ++ path ++ "\n".toList

/-- Drop everything up to and including the first double quote of a script. -/
def dropThroughQuote : List Char → List Char
  | [] => []
  | c :: cs => if c = '"' then cs else dropThroughQuote cs

/-- Take everything strictly before the next double quote. -/
def takeToQuote : List Char → List Char
  | [] => []
  | c :: cs => if c = '"' then [] else c :: takeToQuote cs

/-- The contents of the first double-quoted region of an emitted export
statement: the value the statement actually assigns before its quoted region
is terminated. -/
def firstQuoted (s : List Char) : List Char := takeToQuote (dropThroughQuote s)

/-- Machine descriptor carried by a Spec (engine data model, spec §3). -/
structure Server where
  Image : String
  Name : String
  Region : String
  Size : String
  User : String
deriving DecidableEq

/-- Target platform of the provisioned machine; `OS` selects the script
family. -/
structure Platform where
  OS : String
  Arch : String
deriving DecidableEq

/-- A filesystem entry to materialize remotely: path, raw content (ignored
for directories), permission bits, directory flag (engine data model). -/
structure File where
  Path : String
  Data : List Char
  Mode : Nat
  IsDir : Bool
deriving DecidableEq

/-- Pipeline-level execution specification: provisioning token, machine
descriptor, platform, workspace root, global files, and the runtime-assigned
machine identifier and IP written back by Setup (engine data model, spec §3). -/
structure Spec where
  Token : String
  Server : Server
  Platform : Platform
  Root : String
  Files : List File
  id : Int
  ip : String
deriving DecidableEq

/-- One pipeline step: command, arguments, working directory, environment
map, secrets, and the step's files (engine data model, spec §3). -/
structure Step where
  Command : String
  Args : List String
  WorkingDir : List Char
  Envs : List (List Char × List Char)
  Secrets : List Secret
  Files : List File
deriving DecidableEq

/-- Result of executing a step (engine data model, spec §3). -/
structure State where
  ExitCode : Int
  Exited : Bool
  OOMKilled : Bool
deriving DecidableEq

/-- The instance record returned by the platform Provision call. -/
structure Instance where
  ID : Int
  IP : String
deriving DecidableEq

/-- Arguments of the platform Destroy call. -/
structure DestroyArgs where
  ID : Int
  IP : String
  Token : String
deriving DecidableEq

/-- A remote-side effect performed by the engine over the sftp/ssh
connection: directory creation, file upload, command execution, or a kill
signal sent to the remote process. -/
inductive Action
  | mkdirA (path : String) (mode : Nat)
  | uploadA (path : String) (data : List Char) (mode : Nat)
  | execA (cmd : String)
  | signalA
deriving DecidableEq

/-- Address normalization performed by `dial` (engine_impl.go:281-283): the
address gets ":22" appended unless it already ends with ":22"
(`strings.HasSuffix(server, ":22")`). -/
def dialAddress (server : String) : String :=
  if ":22".toList.isSuffixOf server.toList then server else server ++ ":22"

/-- An address carries an explicit port when it contains a colon. -/
def hasPort (server : String) : Bool := decide (':' ∈ server.toList)

/-- Destroy (engine_impl.go:171-187): success without any collaborator call
when the machine identifier is still zero; otherwise delegate deletion to the
platform collaborator (abstracted as `oracle`) by identifier/IP/token and
return its result verbatim. The first component records the collaborator
invocation, if any. -/
def destroy (oracle : DestroyArgs → Option GoError) (spec : Spec) :
    Option DestroyArgs × Option GoError :=
  if spec.id = 0 then (none, none)
  else
    let args : DestroyArgs := ⟨spec.id, spec.ip, spec.Token⟩
    (some args, oracle args)

/-- The in-memory script Run assembles for each step file
(engine_impl.go:213-218): workdir statement, then secret exports, then
environment exports, then the file's literal byte content. -/
def buildScript (spec : Spec) (step : Step) (file : File) : List Char :=
  writeWorkdir step.WorkingDir
    ++ writeSecrets spec.Platform.OS step.Secrets
    ++ writeEnviron spec.Platform.OS step.Envs
    ++ file.Data

/-- The oracles a single Run invocation consults: the dial result, the sftp
client result, the remote filesystem (keyed by the attempted action), the
session-open result, whether the caller's context fires before the command
completes, the context's own error value, and the command's result. -/
structure RunWorld where
  dialErr : Option GoError
  sftpErr : Option GoError
  oracle : Action → Option GoError
  sessionErr : Option GoError
  cancelled : Bool
  ctxError : GoError
  cmdResult : Option GoError

/-- The per-file upload loop of Run (engine_impl.go:213-227): each file's
assembled script is uploaded at the file's path and mode; the first failure
stops the loop. Returns the performed actions and the resulting error. -/
def runUploadLoop (oracle : Action → Option GoError) (spec : Spec) (step : Step) :
    List File → List Action × Option GoError
  | [] => ([], none)
  | f :: fs =>
    let a := Action.uploadA f.Path (buildScript spec step f) f.Mode
    match oracle a with
    | some e => ([a], some e)
    | none =>
      let r := runUploadLoop oracle spec step fs
      (a :: r.1, r.2)

/-- The State Run builds on normal completion (engine_impl.go:262-272):
ExitCode 0, Exited true, OOMKilled false by default; ExitCode 255 whenever
the command failed; ExitCode overwritten with the reported exit status when
the error is an ssh exit error. -/
def completionState (err : Option GoError) : State :=
  let state0 : State := { ExitCode := 0, Exited := true, OOMKilled := false }
  let state1 := if err.isSome then { state0 with ExitCode := 255 } else state0
  match err with
  | some (GoError.exitError s) => { state1 with ExitCode := s }
  | _ => state1

/-- Run (engine_impl.go:190-277): dial once without retry, open the sftp
client, upload each step file's script, open a session, execute
`<command> <space-joined args>`, and race completion against cancellation.
On cancellation a kill signal is attempted and the context's error is
returned with no State; on completion a State is built with Exited=true,
OOMKilled=false, ExitCode 0 by default, 255 on a non-exit-status failure,
or the reported exit status. -/
def run (w : RunWorld) (spec : Spec) (step : Step) :
    List Action × Option State × Option GoError :=
  match w.dialErr with
  | some e => ([], none, some e)
  | none =>
  match w.sftpErr with
  | some e => ([], none, some e)
  | none =>
  match runUploadLoop w.oracle spec step step.Files with
  | (tr, some e) => (tr, none, some e)
  | (tr, none) =>
  match w.sessionErr with
  | some e => (tr, none, some e)
  | none =>
  let cmd := step.Command ++ " " ++ String.intercalate " " step.Args
  if w.cancelled then
    (tr ++ [Action.execA cmd, Action.signalA], none, some w.ctxError)
  else
    (tr ++ [Action.execA cmd], some (completionState w.cmdResult), w.cmdResult)

/-- The oracles a single Setup invocation consults: the key-registration
result, the Provision result (instance record plus error, observed in that
order by the source), the dialRetry result, the sftp client result, and the
remote filesystem keyed by the attempted action. -/
structure SetupWorld where
  registerErr : Option GoError
  inst : Instance
  provisionErr : Option GoError
  dialErr : Option GoError
  sftpErr : Option GoError
  oracle : Action → Option GoError

/-- The directory-creation loop of Setup (engine_impl.go:132-144): skip
non-directory files, create each directory-flagged file at its path and
mode, stop at the first failure. -/
def mkdirLoop (oracle : Action → Option GoError) : List File → List Action × Option GoError
  | [] => ([], none)
  | f :: fs =>
    if f.IsDir = false then mkdirLoop oracle fs
    else
      let a := Action.mkdirA f.Path f.Mode
      match oracle a with
      | some e => ([a], some e)
      | none =>
        let r := mkdirLoop oracle fs
        (a :: r.1, r.2)

/-- The file-upload loop of Setup (engine_impl.go:149-160): skip directories,
upload each regular file's literal data at its path and mode, stop at the
first failure. -/
def setupUploadLoop (oracle : Action → Option GoError) : List File → List Action × Option GoError
  | [] => ([], none)
  | f :: fs =>
    if f.IsDir = true then setupUploadLoop oracle fs
    else
      let a := Action.uploadA f.Path f.Data f.Mode
      match oracle a with
      | some e => ([a], some e)
      | none =>
        let r := setupUploadLoop oracle fs
        (a :: r.1, r.2)

/-- Setup's staging phase (engine_impl.go:120-160): create the workspace root
with mode 0777 (511), then run the directory loop, then the upload loop; the
first failure aborts with that error. -/
def setupStaging (oracle : Action → Option GoError) (spec : Spec) :
    List Action × Option GoError :=
  let rootA := Action.mkdirA spec.Root 511
  match oracle rootA with
  | some e => ([rootA], some e)
  | none =>
    match mkdirLoop oracle spec.Files with
    | (tr, some e) => (rootA :: tr, some e)
    | (tr, none) =>
      let r := setupUploadLoop oracle spec.Files
      (rootA :: (tr ++ r.1), r.2)

/-- Setup (engine_impl.go:61-168): register the key, provision the machine —
recording the returned identifier/IP onto the spec whenever the identifier is
positive, before the provision error is examined — then dial with retry, open
the sftp client, and stage the workspace. Returns the possibly-updated spec,
the staging actions performed, and the error result. -/
def setup (w : SetupWorld) (spec : Spec) : Spec × List Action × Option GoError :=
  match w.registerErr with
  | some e => (spec, [], some e)
  | none =>
    let spec1 := if w.inst.ID > 0 then { spec with id := w.inst.ID, ip := w.inst.IP } else spec
    match w.provisionErr with
    | some e => (spec1, [], some e)
    | none =>
    match w.dialErr with
    | some e => (spec1, [], some e)
    | none =>
    match w.sftpErr with
    | some e => (spec1, [], some e)
    | none =>
      let r := setupStaging w.oracle spec1
      (spec1, r.1, r.2)

/-- The directory-creation actions for the directory-flagged files of a
list, in list order. -/
def dirActions (files : List File) : List Action :=
  (files.filter (fun f => f.IsDir)).map (fun f => Action.mkdirA f.Path f.Mode)

/-- The upload actions for the regular files of a list, in list order. -/
def fileActions (files : List File) : List Action :=
  (files.filter (fun f => !f.IsDir)).map (fun f => Action.uploadA f.Path f.Data f.Mode)

/-- The staging actions Setup performs in order when nothing fails: the
workspace root first, then every directory-flagged global file, then every
regular global file. -/
def plannedActions (spec : Spec) : List Action :=
  Action.mkdirA spec.Root 511 :: (dirActions spec.Files ++ fileActions spec.Files)

/-- Sequential execution of a list of staging actions against the remote
filesystem oracle: perform actions in order, stopping at the first failure;
returns the performed actions and the resulting error. -/
def stage (oracle : Action → Option GoError) : List Action → List Action × Option GoError
  | [] => ([], none)
  | a :: rest =>
    match oracle a with
    | some e => ([a], some e)
    | none =>
      let r := stage oracle rest
      (a :: r.1, r.2)

/-- Result of one dial attempt: a connected client, or a failure carrying the
error and (defensively, as the source's nil-check allows) a possible
connection object. -/
inductive DialResult
  | ok (client : Nat)
  | fail (err : GoError) (client : Option Nat)
deriving DecidableEq

/-- Whether a dial attempt failed. -/
def DialResult.isFail : DialResult → Bool
  | .ok _ => false
  | .fail _ _ => true

/-- Outcome of dialRetry: a connection, or the context's error. The trailing
`return client, err` after the loop (engine_impl.go:345) is unreachable. -/
inductive DialOutcome
  | conn (client : Nat)
  | ctxError
deriving DecidableEq

/-- Observable events of a dialRetry execution: a dial attempt (numbered from
0 for the immediate attempt), a close of a failed attempt's connection
object, and a completed 10-second wait. -/
inductive RetryEvent
  | attempt (i : Nat)
  | close (client : Nat)
  | wait
deriving DecidableEq

/-- The caller's context, abstracted: whether it is already cancelled, and an
optional deadline in seconds from the start of dialRetry. -/
structure Ctx where
  cancelled : Bool
  deadline : Option Nat
deriving DecidableEq

/-- The overall network-setup timeout (engine_impl.go:30): 10 minutes, in
seconds. -/
def networkTimeout : Nat := 600

/-- The deadline of the child context dialRetry derives via
`context.WithTimeout(ctx, networkTimeout)` (engine_impl.go:307): the parent
deadline, if any, capped by the network timeout. -/
def childDeadline (ctx : Ctx) : Nat :=
  match ctx.deadline with
  | none => networkTimeout
  | some p => min p networkTimeout

/-- The close events for a failed dial attempt's connection object, if any
(engine_impl.go:333-335). -/
def closesOf (cl : Option Nat) : List RetryEvent :=
  match cl with
  | some c => [RetryEvent.close c]
  | none => []

/-- The retry loop of dialRetry (engine_impl.go:310-344). Time `t` advances
by 10 seconds per wait; `d` is the child context's deadline; `i` numbers the
attempt. The loop checks the context before each attempt, closes a failed
attempt's connection object, and checks the context again during the wait
(the context wins the select exactly when the deadline falls within the
10-second window). -/
def retryLoop (dials : Nat → DialResult) (cancelled : Bool) (d : Nat) (i t : Nat) :
    DialOutcome × List RetryEvent :=
  if cancelled then (DialOutcome.ctxError, [])
  else if d ≤ t then (DialOutcome.ctxError, [])
  else
    match dials i with
    | DialResult.ok c => (DialOutcome.conn c, [RetryEvent.attempt i])
    | DialResult.fail _ cl =>
      let closes := closesOf cl
      if d ≤ t + 10 then (DialOutcome.ctxError, RetryEvent.attempt i :: closes)
      else
        let rest := retryLoop dials cancelled d (i + 1) (t + 10)
        (rest.1, RetryEvent.attempt i :: (closes ++ RetryEvent.wait :: rest.2))
termination_by d - t
decreasing_by omega

/-- dialRetry (engine_impl.go:299-346): an immediate dial attempt whose
success short-circuits the loop; on failure, the retry loop runs under the
child deadline. The immediate failed attempt's connection object, if any, is
not closed by the source. -/
def dialRetry (ctx : Ctx) (dials : Nat → DialResult) : DialOutcome × List RetryEvent :=
  match dials 0 with
  | DialResult.ok c => (DialOutcome.conn c, [RetryEvent.attempt 0])
  | DialResult.fail _ _ =>
    let rest := retryLoop dials ctx.cancelled (childDeadline ctx) 1 0
    (rest.1, RetryEvent.attempt 0 :: rest.2)

/-! Validation of the modelled script generator against the repository's own
unit tests (src/unnamed/part_000). -/

theorem test_writeWorkdir :
    writeWorkdir "/tmp/drone-temp".toList = "cd /tmp/drone-temp\n".toList := by decide

theorem test_writeSecrets_posix :
    writeSecrets "linux" [⟨"a".toList, "b".toList⟩] = "export a=\"b\"\n".toList := by decide

theorem test_writeSecrets_windows :
    writeSecrets "windows" [⟨"a".toList, "b".toList⟩] = "$Env:a = \"b\"\n".toList := by decide

theorem test_writeEnviron_posix :
    writeEnviron "linux" [("c".toList, "d".toList), ("a".toList, "b".toList)]
      = "export a=\"b\"\nexport c=\"d\"\n".toList := by decide

theorem test_writeEnviron_windows :
    writeEnviron "windows" [("a".toList, "b".toList), ("c".toList, "d".toList)]
      = "$Env:a = \"b\"\n$Env:c = \"d\"\n".toList := by decide

/-! Helper lemmas for the quoted-region parser. -/

theorem dropThroughQuote_append (l r : List Char) (h : '"' ∉ l) :
    dropThroughQuote (l ++ r) = dropThroughQuote r := by
  induction l with
  | nil => rfl
  | cons c cs ih =>
    have hc : c ≠ '"' := by intro hc; exact h (by simp [hc])
    have hcs : '"' ∉ cs := by intro hm; exact h (List.mem_cons_of_mem _ hm)
    simp [dropThroughQuote, hc, ih hcs]

theorem takeToQuote_append (v r : List Char) (h : '"' ∉ v) :
    takeToQuote (v ++ '"' :: r) = v := by
  induction v with
  | nil => simp [takeToQuote]
  | cons c cs ih =>
    have hc : c ≠ '"' := by intro hc; exact h (by simp [hc])
    have hcs : '"' ∉ cs := by intro hm; exact h (List.mem_cons_of_mem _ hm)
    simp [takeToQuote, hc, ih hcs]

theorem dropThroughQuote_cons_ne (c : Char) (cs : List Char) (h : c ≠ '"') :
    dropThroughQuote (c :: cs) = dropThroughQuote cs := by
  simp [dropThroughQuote, h]

theorem dropThroughQuote_cons_quote (cs : List Char) :
    dropThroughQuote ('"' :: cs) = cs := by
  simp [dropThroughQuote]

theorem firstQuoted_writeEnv_posix (k v : List Char) (hk : '"' ∉ k) (hv : '"' ∉ v) :
    firstQuoted (writeEnv "linux" k v) = v := by
  unfold firstQuoted writeEnv
  rw [if_neg (by decide)]
  simp only [List.append_assoc]
  rw [dropThroughQuote_append "export ".toList _ (by decide),
    dropThroughQuote_append k _ hk,
    show ("=\"".toList : List Char) = '=' :: ['"'] from rfl,
    List.cons_append, List.singleton_append,
    dropThroughQuote_cons_ne '=' _ (by decide),
    dropThroughQuote_cons_quote,
    show ("\"\n".toList : List Char) = '"' :: ['\n'] from rfl,
    takeToQuote_append v _ hv]

theorem firstQuoted_writeEnv_windows (k v : List Char) (hk : '"' ∉ k) (hv : '"' ∉ v) :
    firstQuoted (writeEnv "windows" k v) = v := by
  unfold firstQuoted writeEnv
  rw [if_pos rfl]
  simp only [List.append_assoc]
  rw [dropThroughQuote_append "$Env:".toList _ (by decide),
    dropThroughQuote_append k _ hk,
    show (" = \"".toList : List Char) = ' ' :: '=' :: ' ' :: ['"'] from rfl,
    List.cons_append, List.cons_append, List.cons_append, List.singleton_append,
    dropThroughQuote_cons_ne ' ' _ (by decide),
    dropThroughQuote_cons_ne '=' _ (by decide),
    dropThroughQuote_cons_ne ' ' _ (by decide),
    dropThroughQuote_cons_quote,
    show ("\"\n".toList : List Char) = '"' :: ['\n'] from rfl,
    takeToQuote_append v _ hv]

/-- Claim C1 (counterexample): the quoting rule wraps the raw secret value in
double quotes with no escaping, so a secret value containing a double quote
terminates the quoted region of the export statement early — the statement
assigns only the prefix before the embedded quote, and the remainder of the
value (here a second `leaked="evil"` token) lands in the script outside the
intended statement. -/
theorem c1_counterexample :
    firstQuoted (writeSecrets "linux" [⟨"a".toList, "b\" leaked=\"evil".toList⟩])
        = "b".toList
    ∧ "b".toList ≠ "b\" leaked=\"evil".toList
    ∧ writeSecrets "linux" [⟨"a".toList, "b\" leaked=\"evil".toList⟩]
        = "export a=\"b\" leaked=\"evil\"\n".toList :=
  ⟨by decide, by decide, by decide⟩

/-- Claim C1 (amended): writeSecrets applies the same quoting rule as
writeEnviron — a single secret produces exactly the line writeEnviron
produces for the same key/value, on both OS families — and for values free
of embedded double quotes the quoted region of the emitted statement carries
exactly the value (in particular a value containing `$` is carried intact);
but the rule does not escape embedded double quotes, so such a value
terminates the statement's quoted region early. -/
theorem c1_secret_quoting :
    (∀ (os : String) (k v : List Char), writeSecrets os [⟨k, v⟩] = writeEnviron os [(k, v)])
    ∧ (∀ k v : List Char, '"' ∉ k → '"' ∉ v → firstQuoted (writeEnv "linux" k v) = v)
    ∧ (∀ k v : List Char, '"' ∉ k → '"' ∉ v → firstQuoted (writeEnv "windows" k v) = v) :=
  ⟨fun _ _ _ => rfl, firstQuoted_writeEnv_posix, firstQuoted_writeEnv_windows⟩

/-- Claim C1 (witness): a quote-free secret value containing `$` is carried
intact by the POSIX export statement. -/
theorem c1_witness :
    firstQuoted (writeEnv "linux" "a".toList "x$y".toList) = "x$y".toList :=
  c1_secret_quoting.2.1 _ _ (by decide) (by decide)

/-! Helper lemmas relating the ":22"-suffix check to the presence of a
colon. -/

theorem isPrefixOf_subset {l m : List Char} (h : l.isPrefixOf m = true) :
    ∀ c ∈ l, c ∈ m := by
  induction l generalizing m with
  | nil => intro c hc; cases hc
  | cons a as ih =>
    cases m with
    | nil => simp [List.isPrefixOf] at h
    | cons b bs =>
      simp only [List.isPrefixOf, Bool.and_eq_true, beq_iff_eq] at h
      intro c hc
      rcases List.mem_cons.mp hc with rfl | hc
      · exact h.1 ▸ List.mem_cons_self _ _
      · exact List.mem_cons_of_mem _ (ih h.2 c hc)

theorem suffix22_has_colon {s : String} (h : (":22".toList.isSuffixOf s.toList) = true) :
    ':' ∈ s.toList := by
  rw [List.isSuffixOf] at h
  have h2 := isPrefixOf_subset h ':' (by decide)
  simpa using h2

/-- Claim C9 (counterexample): an address that already carries a port other
than 22 is not dialed unchanged — the code's check is for the exact suffix
":22", so ":22" is appended to "10.0.0.5:2222". -/
theorem c9_counterexample :
    hasPort "10.0.0.5:2222" = true
    ∧ dialAddress "10.0.0.5:2222" = "10.0.0.5:2222:22"
    ∧ "10.0.0.5:2222:22" ≠ "10.0.0.5:2222" :=
  ⟨by decide, by decide, by decide⟩

/-- Claim C9 (amended): dial appends ":22" exactly when the address does not
already end with ":22": an address with no port (no colon) is normalized to
include the standard port, and an address already ending in ":22" is dialed
unchanged; but an address carrying a different port also has ":22" appended
rather than being dialed unchanged. -/
theorem c9_dial_normalization : ∀ s : String,
    (hasPort s = false → dialAddress s = s ++ ":22")
    ∧ ((":22".toList.isSuffixOf s.toList) = true → dialAddress s = s)
    ∧ ((":22".toList.isSuffixOf s.toList) = false → dialAddress s = s ++ ":22") := by
  intro s
  refine ⟨?_, ?_, ?_⟩
  · intro h
    have hcol : ¬ (':' ∈ s.toList) := by simpa [hasPort] using h
    have hn : ":22".toList.isSuffixOf s.toList = false := by
      cases hx : ":22".toList.isSuffixOf s.toList with
      | true => exact absurd (suffix22_has_colon hx) hcol
      | false => rfl
    simp only [dialAddress, hn]
    simp
  · intro h
    simp only [dialAddress, h]
    simp
  · intro h
    simp only [dialAddress, h]
    simp

/-- Claim C9 (witness): a bare address with no port gets ":22" appended. -/
theorem c9_witness : dialAddress "10.0.0.5" = "10.0.0.5" ++ ":22" :=
  (c9_dial_normalization "10.0.0.5").1 (by decide)

/-! Destroy. -/

/-- Claim C3: Destroy on a Spec whose machine identifier is zero returns
success without invoking the provisioning collaborator; otherwise it asks
the collaborator to delete by identifier/IP (with the spec's token) and
returns the collaborator's result verbatim. -/
theorem c3_destroy (oracle : DestroyArgs → Option GoError) (spec : Spec) :
    (spec.id = 0 → destroy oracle spec = (none, none))
    ∧ (spec.id ≠ 0 →
        destroy oracle spec =
          (some ⟨spec.id, spec.ip, spec.Token⟩, oracle ⟨spec.id, spec.ip, spec.Token⟩)) := by
  constructor
  · intro h; simp [destroy, h]
  · intro h; simp [destroy, h]

/-- A sample machine descriptor used by concrete witnesses. -/
def sampleServer : Server := ⟨"ubuntu-16-04-x64", "agent", "nyc1", "s-1vcpu-1gb", "root"⟩

/-- A sample Spec with no machine provisioned. -/
def sampleSpecZero : Spec := ⟨"tok", sampleServer, ⟨"linux", "amd64"⟩, "/tmp/ws", [], 0, ""⟩

/-- A sample Spec with a provisioned machine. -/
def sampleSpecLive : Spec := ⟨"tok", sampleServer, ⟨"linux", "amd64"⟩, "/tmp/ws", [], 7, "1.2.3.4"⟩

/-- Claim C3 (witness): Destroy at a zero identifier performs no collaborator
call and succeeds; at identifier 7 it passes identifier/IP/token through and
returns the collaborator's error verbatim. -/
theorem c3_witness :
    destroy (fun _ => none) sampleSpecZero = (none, none)
    ∧ destroy (fun _ => some (GoError.errMsg "boom")) sampleSpecLive
        = (some ⟨7, "1.2.3.4", "tok"⟩, some (GoError.errMsg "boom")) :=
  ⟨(c3_destroy _ sampleSpecZero).1 rfl,
   (c3_destroy _ sampleSpecLive).2 (by decide)⟩

/-! Run. -/

theorem string_append_empty (s : String) : s ++ "" = s := by
  cases s with
  | mk data =>
    show String.mk (data ++ []) = String.mk data
    rw [List.append_nil]

theorem runUploadLoop_ok (oracle : Action → Option GoError) (spec : Spec) (step : Step)
    (h : ∀ a, oracle a = none) : ∀ fs : List File,
    runUploadLoop oracle spec step fs
      = (fs.map (fun f => Action.uploadA f.Path (buildScript spec step f) f.Mode), none) := by
  intro fs
  induction fs with
  | nil => rfl
  | cons f fs ih => simp [runUploadLoop, h, ih]

theorem runUploadLoop_mem (oracle : Action → Option GoError) (spec : Spec) (step : Step) :
    ∀ (fs : List File) (p : String) (d : List Char) (m : Nat),
      Action.uploadA p d m ∈ (runUploadLoop oracle spec step fs).1 →
      ∃ f ∈ fs, p = f.Path ∧ m = f.Mode ∧ d = buildScript spec step f := by
  intro fs
  induction fs with
  | nil => intro p d m h; simp [runUploadLoop] at h
  | cons f fs ih =>
    intro p d m h
    simp only [runUploadLoop] at h
    cases ho : oracle (Action.uploadA f.Path (buildScript spec step f) f.Mode) with
    | some e =>
      rw [ho] at h
      simp only [List.mem_singleton, Action.uploadA.injEq] at h
      exact ⟨f, List.mem_cons_self _ _, h.1, h.2.2, h.2.1⟩
    | none =>
      rw [ho] at h
      simp only [List.mem_cons, Action.uploadA.injEq] at h
      rcases h with ⟨hp, hd, hm⟩ | h
      · exact ⟨f, List.mem_cons_self _ _, hp, hm, hd⟩
      · obtain ⟨g, hg, hrest⟩ := ih p d m h
        exact ⟨g, List.mem_cons_of_mem _ hg, hrest⟩

theorem completionState_exited (err : Option GoError) :
    (completionState err).Exited = true ∧ (completionState err).OOMKilled = false := by
  cases err with
  | none => exact ⟨rfl, rfl⟩
  | some e => cases e <;> exact ⟨rfl, rfl⟩

theorem completionState_other (e : GoError) (hne : ∀ s, e ≠ GoError.exitError s) :
    completionState (some e) = ⟨255, true, false⟩ := by
  cases e with
  | exitError s => exact absurd rfl (hne s)
  | canceled => rfl
  | deadlineExceeded => rfl
  | errMsg m => rfl

/-- Claim C4: when the remote command completes (no cancellation, and the
connection, upload and session phases succeed), Run returns a State with
Exited=true and OOMKilled=false together with the underlying error verbatim;
the exit code is 0 on success, the reported exit status when the transport
reports one, and 255 on any other failure. -/
theorem c4_run_completion (w : RunWorld) (spec : Spec) (step : Step)
    (hd : w.dialErr = none) (hs : w.sftpErr = none)
    (hu : ∀ a, w.oracle a = none) (hss : w.sessionErr = none)
    (hc : w.cancelled = false) :
    ∃ st : State,
      (run w spec step).2 = (some st, w.cmdResult)
      ∧ st.Exited = true ∧ st.OOMKilled = false
      ∧ (w.cmdResult = none → st.ExitCode = 0)
      ∧ (∀ s, w.cmdResult = some (GoError.exitError s) → st.ExitCode = s)
      ∧ (∀ e, w.cmdResult = some e → (∀ s, e ≠ GoError.exitError s) → st.ExitCode = 255) := by
  obtain ⟨de, se, oracle, sse, cc, ce, cr⟩ := w
  simp only at hd hs hu hss hc
  subst hd hs hss hc
  refine ⟨completionState cr, ?_, (completionState_exited cr).1,
    (completionState_exited cr).2, ?_, ?_, ?_⟩
  · simp only [run]
    rw [runUploadLoop_ok oracle spec step hu step.Files]
    rfl
  · intro h; subst h; rfl
  · intro s h; subst h; rfl
  · intro e h hne; subst h; rw [completionState_other e hne]

/-- Claim C5: when the caller's context fires while the remote command is
executing, Run returns the context's own error with no State, and the trace
shows the best-effort kill signal sent to the remote process. -/
theorem c5_run_cancelled (w : RunWorld) (spec : Spec) (step : Step)
    (hd : w.dialErr = none) (hs : w.sftpErr = none)
    (hu : ∀ a, w.oracle a = none) (hss : w.sessionErr = none)
    (hc : w.cancelled = true) :
    (run w spec step).2 = (none, some w.ctxError)
    ∧ Action.signalA ∈ (run w spec step).1 := by
  obtain ⟨de, se, oracle, sse, cc, ce, cr⟩ := w
  simp only at hd hs hu hss hc
  subst hd hs hss hc
  simp [run, runUploadLoop_ok oracle spec step hu step.Files]

/-- Claim C10: the remote command string Run executes is the step's command,
one space, and the space-joined argument list; with an empty argument list
this is the command followed by a single trailing space. -/
theorem c10_command_string (w : RunWorld) (spec : Spec) (step : Step)
    (hd : w.dialErr = none) (hs : w.sftpErr = none)
    (hu : ∀ a, w.oracle a = none) (hss : w.sessionErr = none) :
    Action.execA (step.Command ++ " " ++ String.intercalate " " step.Args)
      ∈ (run w spec step).1
    ∧ (step.Args = [] →
        step.Command ++ " " ++ String.intercalate " " step.Args = step.Command ++ " ") := by
  constructor
  · obtain ⟨de, se, oracle, sse, cc, ce, cr⟩ := w
    simp only at hd hs hu hss
    subst hd hs hss
    cases cc <;>
      simp [run, runUploadLoop_ok oracle spec step hu step.Files]
  · intro h
    rw [h]
    rw [show String.intercalate " " ([] : List String) = "" from rfl]
    rw [string_append_empty]

/-- Claim C8: every byte string Run uploads is, for some file of the step,
exactly the working-directory statement, then the secret export lines, then
the environment export lines, then that file's literal content, uploaded at
the file's path and mode; and when nothing fails, every file of the step is
uploaded in exactly that form. -/
theorem c8_uploaded_script (w : RunWorld) (spec : Spec) (step : Step) :
    (∀ (p : String) (d : List Char) (m : Nat),
        Action.uploadA p d m ∈ (run w spec step).1 →
        ∃ f ∈ step.Files, p = f.Path ∧ m = f.Mode
          ∧ d = writeWorkdir step.WorkingDir
              ++ writeSecrets spec.Platform.OS step.Secrets
              ++ writeEnviron spec.Platform.OS step.Envs
              ++ f.Data)
    ∧ (w.dialErr = none → w.sftpErr = none → (∀ a, w.oracle a = none) →
        ∀ f ∈ step.Files,
          Action.uploadA f.Path
            (writeWorkdir step.WorkingDir
              ++ writeSecrets spec.Platform.OS step.Secrets
              ++ writeEnviron spec.Platform.OS step.Envs
              ++ f.Data) f.Mode ∈ (run w spec step).1) := by
  obtain ⟨de, se, oracle, sse, cc, ce, cr⟩ := w
  constructor
  · intro p d m h
    cases de with
    | some e => simp [run] at h
    | none =>
    cases se with
    | some e => simp [run] at h
    | none =>
      rcases hru : runUploadLoop oracle spec step step.Files with ⟨tr, res⟩
      simp only [run] at h
      rw [hru] at h
      have key : Action.uploadA p d m ∈ tr := by
        cases res with
        | some e => exact h
        | none =>
          cases sse with
          | some e => exact h
          | none =>
            cases cc with
            | true =>
              rcases List.mem_append.mp h with h' | h'
              · exact h'
              · simp at h'
            | false =>
              rcases List.mem_append.mp h with h' | h'
              · exact h'
              · simp at h'
      have key2 : Action.uploadA p d m ∈ (runUploadLoop oracle spec step step.Files).1 := by
        rw [hru]; exact key
      exact runUploadLoop_mem oracle spec step step.Files p d m key2
  · intro hd hs hu f hf
    simp only at hd hs hu
    subst hd hs
    have hmem : Action.uploadA f.Path (buildScript spec step f) f.Mode
        ∈ step.Files.map (fun g => Action.uploadA g.Path (buildScript spec step g) g.Mode) :=
      List.mem_map_of_mem _ hf
    cases sse with
    | some e =>
      simp only [run]
      rw [runUploadLoop_ok oracle spec step hu step.Files]
      exact hmem
    | none =>
      cases cc with
      | true =>
        simp only [run]
        rw [runUploadLoop_ok oracle spec step hu step.Files]
        exact List.mem_append_left _ hmem
      | false =>
        simp only [run]
        rw [runUploadLoop_ok oracle spec step hu step.Files]
        exact List.mem_append_left _ hmem

/-- A sample step used by concrete witnesses. -/
def sampleStep : Step :=
  ⟨"/bin/sh", ["-e", "/tmp/ws/script.sh"], "/tmp/ws".toList,
    [("a".toList, "b".toList)], [⟨"s".toList, "v".toList⟩],
    [⟨"/tmp/ws/script.sh", "echo hi\n".toList, 448, false⟩]⟩

/-- The sample step with an empty argument list. -/
def sampleStepNoArgs : Step :=
  { sampleStep with Args := [] }

/-- A sample Run world where every transport phase succeeds. -/
def sampleRunWorld (cancelled : Bool) (cmdResult : Option GoError) : RunWorld :=
  ⟨none, none, fun _ => none, none, cancelled, GoError.canceled, cmdResult⟩

/-- Claim C4 (witness): a command reporting exit status 3 in the sample world
yields a State with ExitCode=3, Exited=true, OOMKilled=false, returned with
the underlying error. -/
theorem c4_witness :
    ∃ st : State,
      (run (sampleRunWorld false (some (GoError.exitError 3))) sampleSpecLive sampleStep).2
          = (some st, some (GoError.exitError 3))
      ∧ st.Exited = true ∧ st.OOMKilled = false
      ∧ (some (GoError.exitError 3) = (none : Option GoError) → st.ExitCode = 0)
      ∧ (∀ s, some (GoError.exitError 3) = some (GoError.exitError s) → st.ExitCode = s)
      ∧ (∀ e, some (GoError.exitError 3) = some e →
          (∀ s, e ≠ GoError.exitError s) → st.ExitCode = 255) :=
  c4_run_completion (sampleRunWorld false (some (GoError.exitError 3))) sampleSpecLive
    sampleStep rfl rfl (fun _ => rfl) rfl rfl

/-- Claim C5 (witness): in the sample world with the context fired
mid-execution, Run returns the context's error, no State, and the trace
records the kill-signal attempt. -/
theorem c5_witness :
    (run (sampleRunWorld true none) sampleSpecLive sampleStep).2
        = (none, some GoError.canceled)
    ∧ Action.signalA ∈ (run (sampleRunWorld true none) sampleSpecLive sampleStep).1 :=
  c5_run_cancelled (sampleRunWorld true none) sampleSpecLive sampleStep
    rfl rfl (fun _ => rfl) rfl rfl

/-- Claim C8 (witness): the sample step's file is uploaded at its path and
mode with exactly the workdir statement, secret exports, environment exports
and file content concatenated. -/
theorem c8_witness :
    Action.uploadA "/tmp/ws/script.sh"
      (writeWorkdir sampleStep.WorkingDir
        ++ writeSecrets "linux" sampleStep.Secrets
        ++ writeEnviron "linux" sampleStep.Envs
        ++ "echo hi\n".toList) 448
      ∈ (run (sampleRunWorld false none) sampleSpecLive sampleStep).1 :=
  (c8_uploaded_script (sampleRunWorld false none) sampleSpecLive sampleStep).2
    rfl rfl (fun _ => rfl) ⟨"/tmp/ws/script.sh", "echo hi\n".toList, 448, false⟩
    (List.mem_singleton.mpr rfl)

/-- Claim C10 (witness): with an empty argument list the executed string is
the command followed by one trailing space. -/
theorem c10_witness :
    Action.execA ("/bin/sh" ++ " " ++ String.intercalate " " ([] : List String))
      ∈ (run (sampleRunWorld false none) sampleSpecLive sampleStepNoArgs).1
    ∧ "/bin/sh" ++ " " ++ String.intercalate " " ([] : List String) = "/bin/sh" ++ " " := by
  have h := c10_command_string (sampleRunWorld false none) sampleSpecLive sampleStepNoArgs
    rfl rfl (fun _ => rfl) rfl
  exact ⟨h.1, h.2 rfl⟩

/-! Setup. -/

theorem stage_ok (oracle : Action → Option GoError) :
    ∀ l : List Action, (∀ a ∈ l, oracle a = none) → stage oracle l = (l, none) := by
  intro l h
  induction l with
  | nil => rfl
  | cons a rest ih =>
    have ha : oracle a = none := h a (List.mem_cons_self _ _)
    simp [stage, ha, ih (fun b hb => h b (List.mem_cons_of_mem _ hb))]

theorem stage_fail (oracle : Action → Option GoError) (a : Action) (e : GoError)
    (ha : oracle a = some e) :
    ∀ l₁ l₂ : List Action, (∀ b ∈ l₁, oracle b = none) →
      stage oracle (l₁ ++ a :: l₂) = (l₁ ++ [a], some e) := by
  intro l₁
  induction l₁ with
  | nil => intro l₂ _; simp [stage, ha]
  | cons b bs ih =>
    intro l₂ h
    have hb : oracle b = none := h b (List.mem_cons_self _ _)
    simp [stage, hb, ih l₂ (fun c hc => h c (List.mem_cons_of_mem _ hc))]

theorem stage_append (oracle : Action → Option GoError) :
    ∀ l₁ l₂ : List Action,
      stage oracle (l₁ ++ l₂)
        = match stage oracle l₁ with
          | (t, some e) => (t, some e)
          | (t, none) => (t ++ (stage oracle l₂).1, (stage oracle l₂).2) := by
  intro l₁ l₂
  induction l₁ with
  | nil => simp [stage]
  | cons a rest ih =>
    rcases h2 : stage oracle rest with ⟨t, r⟩
    cases ho : oracle a with
    | some e => simp [stage, ho]
    | none =>
      cases r with
      | some e => simp [stage, ho, h2, ih]
      | none => simp [stage, ho, h2, ih]

theorem mkdirLoop_eq (oracle : Action → Option GoError) :
    ∀ files : List File, mkdirLoop oracle files = stage oracle (dirActions files) := by
  intro files
  induction files with
  | nil => rfl
  | cons f fs ih =>
    cases hdir : f.IsDir with
    | false => simp [mkdirLoop, dirActions, List.filter_cons, hdir, ih]
    | true =>
      cases ho : oracle (Action.mkdirA f.Path f.Mode) with
      | some e => simp [mkdirLoop, dirActions, List.filter_cons, hdir, stage, ho]
      | none => simp [mkdirLoop, dirActions, List.filter_cons, hdir, stage, ho, ih]

theorem setupUploadLoop_eq (oracle : Action → Option GoError) :
    ∀ files : List File, setupUploadLoop oracle files = stage oracle (fileActions files) := by
  intro files
  induction files with
  | nil => rfl
  | cons f fs ih =>
    cases hdir : f.IsDir with
    | true => simp [setupUploadLoop, fileActions, List.filter_cons, hdir, ih]
    | false =>
      cases ho : oracle (Action.uploadA f.Path f.Data f.Mode) with
      | some e => simp [setupUploadLoop, fileActions, List.filter_cons, hdir, stage, ho]
      | none => simp [setupUploadLoop, fileActions, List.filter_cons, hdir, stage, ho, ih]

theorem setupStaging_eq (oracle : Action → Option GoError) (spec : Spec) :
    setupStaging oracle spec = stage oracle (plannedActions spec) := by
  unfold setupStaging plannedActions
  cases ho : oracle (Action.mkdirA spec.Root 511) with
  | some e => simp [stage, ho]
  | none =>
    rcases hm : mkdirLoop oracle spec.Files with ⟨t1, r1⟩
    rcases hp : setupUploadLoop oracle spec.Files with ⟨t2, r2⟩
    have hsd : stage oracle (dirActions spec.Files) = (t1, r1) := by
      rw [← mkdirLoop_eq]; exact hm
    have hsu : stage oracle (fileActions spec.Files) = (t2, r2) := by
      rw [← setupUploadLoop_eq]; exact hp
    simp only [stage, ho]
    rw [stage_append oracle (dirActions spec.Files) (fileActions spec.Files), hsd, hsu]
    cases r1 with
    | some e => rfl
    | none => rfl

/-- Claim C2: the identifier and IP returned by Provision are recorded onto
the Spec whenever a machine was (at least partially) created, regardless of
whether provisioning or any later Setup phase errors, and no other Spec
field is modified by Setup. -/
theorem c2_setup_records_instance (w : SetupWorld) (spec : Spec)
    (hr : w.registerErr = none) (hid : 0 < w.inst.ID) :
    ((setup w spec).1.id = w.inst.ID ∧ (setup w spec).1.ip = w.inst.IP)
    ∧ ((setup w spec).1.Token = spec.Token ∧ (setup w spec).1.Server = spec.Server
      ∧ (setup w spec).1.Platform = spec.Platform ∧ (setup w spec).1.Root = spec.Root
      ∧ (setup w spec).1.Files = spec.Files) := by
  obtain ⟨re, inst, pe, de, se, oracle⟩ := w
  simp only at hr hid
  subst hr
  have h1 : (setup ⟨none, inst, pe, de, se, oracle⟩ spec).1
      = { spec with id := inst.ID, ip := inst.IP } := by
    simp only [setup]
    rw [if_pos hid]
    cases pe with
    | some e => rfl
    | none =>
      cases de with
      | some e => rfl
      | none =>
        cases se with
        | some e => rfl
        | none => rfl
  rw [h1]
  exact ⟨⟨rfl, rfl⟩, rfl, rfl, rfl, rfl, rfl⟩

/-- A Setup world whose provisioning call returns an instance and an error
at the same time (a partially-created machine). -/
def sampleSetupWorld : SetupWorld :=
  ⟨none, ⟨42, "10.1.2.3"⟩, some (GoError.errMsg "provision timeout"), none, none,
    fun _ => none⟩

/-- Claim C2 (witness): even though Provision errored, the returned
identifier 42 and IP are recorded on the Spec and every other field is
untouched. -/
theorem c2_witness :
    ((setup sampleSetupWorld sampleSpecZero).1.id = 42
      ∧ (setup sampleSetupWorld sampleSpecZero).1.ip = "10.1.2.3")
    ∧ ((setup sampleSetupWorld sampleSpecZero).1.Token = "tok"
      ∧ (setup sampleSetupWorld sampleSpecZero).1.Server = sampleServer
      ∧ (setup sampleSetupWorld sampleSpecZero).1.Platform = ⟨"linux", "amd64"⟩
      ∧ (setup sampleSetupWorld sampleSpecZero).1.Root = "/tmp/ws"
      ∧ (setup sampleSetupWorld sampleSpecZero).1.Files = []) :=
  c2_setup_records_instance sampleSetupWorld sampleSpecZero rfl (by decide)

/-- Claim C7: once the connection phases of Setup succeed, the staging phase
creates the workspace root first, then every directory-flagged global file,
then uploads every regular global file, exactly in `plannedActions` order;
and the first failing staging action aborts Setup, which performs no further
action and propagates that error. -/
theorem c7_setup_staging (w : SetupWorld) (spec : Spec)
    (hr : w.registerErr = none) (hp : w.provisionErr = none)
    (hd : w.dialErr = none) (hs : w.sftpErr = none) :
    ((∀ a ∈ plannedActions spec, w.oracle a = none) →
        (setup w spec).2 = (plannedActions spec, none))
    ∧ (∀ (l₁ : List Action) (a : Action) (l₂ : List Action) (e : GoError),
        plannedActions spec = l₁ ++ a :: l₂ →
        (∀ b ∈ l₁, w.oracle b = none) → w.oracle a = some e →
        (setup w spec).2 = (l₁ ++ [a], some e)) := by
  obtain ⟨re, inst, pe, de, se, oracle⟩ := w
  simp only at hr hp hd hs
  subst hr hp hd hs
  have hps : plannedActions
      (if inst.ID > 0 then { spec with id := inst.ID, ip := inst.IP } else spec)
      = plannedActions spec := by
    split <;> rfl
  have h2 : (setup ⟨none, inst, none, none, none, oracle⟩ spec).2
      = stage oracle (plannedActions spec) := by
    simp only [setup]
    rw [setupStaging_eq, hps]
  constructor
  · intro hok
    rw [h2]
    exact stage_ok oracle _ hok
  · intro l₁ a l₂ e hsplit hok ha
    rw [h2, hsplit]
    exact stage_fail oracle a e ha l₁ l₂ hok

/-- A Setup world where every phase succeeds. -/
def sampleSetupWorldOk : SetupWorld :=
  ⟨none, ⟨42, "10.1.2.3"⟩, none, none, none, fun _ => none⟩

/-- A Spec with one global directory and one global regular file. -/
def sampleSpecFiles : Spec :=
  ⟨"tok", sampleServer, ⟨"linux", "amd64"⟩, "/tmp/ws",
    [⟨"/tmp/ws/d", [], 493, true⟩, ⟨"/tmp/ws/f", "x".toList, 420, false⟩], 0, ""⟩

/-- Claim C7 (witness): with nothing failing, Setup stages exactly the
planned actions — root, then the directory, then the file — and succeeds. -/
theorem c7_witness :
    (setup sampleSetupWorldOk sampleSpecFiles).2 = (plannedActions sampleSpecFiles, none) :=
  (c7_setup_staging sampleSetupWorldOk sampleSpecFiles rfl rfl rfl rfl).1 (fun _ _ => rfl)

/-! dialRetry. -/

theorem retryLoop_allFail (dials : Nat → DialResult) (d : Nat)
    (hf : ∀ i, (dials i).isFail = true) :
    ∀ (k i t : Nat), d ≤ t + k →
      (retryLoop dials false d i t).1 = DialOutcome.ctxError := by
  intro k
  induction k with
  | zero =>
    intro i t hk
    rw [retryLoop, if_neg Bool.false_ne_true, if_pos (by omega)]
  | succ k ih =>
    intro i t hk
    by_cases hdt : d ≤ t
    · rw [retryLoop, if_neg Bool.false_ne_true, if_pos hdt]
    · cases hdi : dials i with
      | ok c =>
        have := hf i
        rw [hdi] at this
        simp [DialResult.isFail] at this
      | fail e cl =>
        by_cases h10 : d ≤ t + 10
        · rw [retryLoop, if_neg Bool.false_ne_true, if_neg hdt]
          simp only [hdi]
          rw [if_pos h10]
        · have key : retryLoop dials false d i t
              = ((retryLoop dials false d (i + 1) (t + 10)).1,
                RetryEvent.attempt i ::
                  (closesOf cl ++
                    RetryEvent.wait :: (retryLoop dials false d (i + 1) (t + 10)).2)) := by
            rw [retryLoop, if_neg Bool.false_ne_true, if_neg hdt]
            simp only [hdi]
            rw [if_neg h10]
          rw [key]
          exact ih (i + 1) (t + 10) (by omega)

theorem retryLoop_success (dials : Nat → DialResult) (d N : Nat) (c : Nat)
    (hN : dials N = DialResult.ok c) :
    ∀ (n i t : Nat), N - i = n → i ≤ N →
      (∀ j, i ≤ j → j < N → (dials j).isFail = true) →
      t + 10 * (N - i) < d →
      (retryLoop dials false d i t).1 = DialOutcome.conn c
      ∧ ∀ j e cc, i ≤ j → j < N → dials j = DialResult.fail e (some cc) →
          RetryEvent.close cc ∈ (retryLoop dials false d i t).2 := by
  intro n
  induction n with
  | zero =>
    intro i t hn hi hfail ht
    have hiN : i = N := by omega
    subst hiN
    have key : retryLoop dials false d i t = (DialOutcome.conn c, [RetryEvent.attempt i]) := by
      rw [retryLoop, if_neg Bool.false_ne_true, if_neg (by omega)]
      simp only [hN]
    rw [key]
    exact ⟨rfl, fun j e cc hj1 hj2 _ => absurd hj2 (Nat.not_lt.mpr hj1)⟩
  | succ n ih =>
    intro i t hn hi hfail ht
    have hiN : i < N := by omega
    have hfi := hfail i (Nat.le_refl i) hiN
    cases hdi : dials i with
    | ok c0 =>
      rw [hdi] at hfi
      simp [DialResult.isFail] at hfi
    | fail e cl =>
      have hdt : ¬ d ≤ t := by omega
      have h10 : ¬ d ≤ t + 10 := by omega
      obtain ⟨ih1, ih2⟩ := ih (i + 1) (t + 10) (by omega) (by omega)
        (fun j hj1 hj2 => hfail j (by omega) hj2) (by omega)
      have key : retryLoop dials false d i t
          = ((retryLoop dials false d (i + 1) (t + 10)).1,
            RetryEvent.attempt i ::
              (closesOf cl ++
                RetryEvent.wait :: (retryLoop dials false d (i + 1) (t + 10)).2)) := by
        rw [retryLoop, if_neg Bool.false_ne_true, if_neg hdt]
        simp only [hdi]
        rw [if_neg h10]
      constructor
      · rw [key]
        exact ih1
      · intro j e' cc hj1 hj2 hdj
        rw [key]
        by_cases hji : j = i
        · subst hji
          rw [hdi] at hdj
          have hcl : cl = some cc := by
            rw [DialResult.fail.injEq] at hdj
            exact hdj.2
          subst hcl
          exact List.mem_cons_of_mem _
            (List.mem_append_left _ (List.mem_singleton.mpr rfl))
        · have hj1' : i + 1 ≤ j := by omega
          exact List.mem_cons_of_mem _
            (List.mem_append_right _
              (List.mem_cons_of_mem _ (ih2 j e' cc hj1' hj2 hdj)))

/-- Claim C6: dialRetry returns the immediate dial's connection on success;
with a cancelled context and a failing immediate dial it returns the
context's error promptly, before any retry attempt; when every dial fails,
the loop runs under the child deadline derived from the 10-minute network
timeout and ends with the context's error, never a dial error; and when the
first N dials fail and attempt N (N ≤ 60, one attempt per 10-second wait
within the 10-minute window) succeeds, the connection is returned and every
failed retry attempt's connection object was closed. -/
theorem c6_dialRetry (ctx : Ctx) (dials : Nat → DialResult) :
    (∀ c, dials 0 = DialResult.ok c →
        dialRetry ctx dials = (DialOutcome.conn c, [RetryEvent.attempt 0]))
    ∧ (ctx.cancelled = true → (dials 0).isFail = true →
        dialRetry ctx dials = (DialOutcome.ctxError, [RetryEvent.attempt 0]))
    ∧ ((∀ i, (dials i).isFail = true) → (dialRetry ctx dials).1 = DialOutcome.ctxError)
    ∧ (∀ N c, ctx.cancelled = false → ctx.deadline = none → 1 ≤ N → N ≤ 60 →
        (∀ j, j < N → (dials j).isFail = true) → dials N = DialResult.ok c →
        (dialRetry ctx dials).1 = DialOutcome.conn c
        ∧ ∀ j e cc, 1 ≤ j → j < N → dials j = DialResult.fail e (some cc) →
            RetryEvent.close cc ∈ (dialRetry ctx dials).2) := by
  refine ⟨?_, ?_, ?_, ?_⟩
  · intro c h
    simp only [dialRetry, h]
  · intro hc hf
    cases hd0 : dials 0 with
    | ok c =>
      rw [hd0] at hf
      simp [DialResult.isFail] at hf
    | fail e cl =>
      simp only [dialRetry, hd0]
      rw [hc, retryLoop, if_pos rfl]
  · intro hf
    cases hd0 : dials 0 with
    | ok c =>
      have := hf 0
      rw [hd0] at this
      simp [DialResult.isFail] at this
    | fail e cl =>
      simp only [dialRetry, hd0]
      cases hc : ctx.cancelled with
      | true => rw [retryLoop, if_pos rfl]
      | false =>
        exact retryLoop_allFail dials (childDeadline ctx) hf (childDeadline ctx) 1 0
          (by omega)
  · intro N c hcan hdl hN1 hN60 hfail hNok
    have hd : childDeadline ctx = 600 := by
      simp [childDeadline, hdl, networkTimeout]
    cases hd0 : dials 0 with
    | ok c0 =>
      have := hfail 0 (by omega)
      rw [hd0] at this
      simp [DialResult.isFail] at this
    | fail e cl =>
      have hsucc := retryLoop_success dials (childDeadline ctx) N c hNok (N - 1) 1 0 rfl
        hN1 (fun j _ hj2 => hfail j hj2) (by rw [hd]; omega)
      constructor
      · simp only [dialRetry, hd0]
        rw [hcan]
        exact hsucc.1
      · intro j e' cc hj1 hjN hdj
        simp only [dialRetry, hd0]
        rw [hcan]
        exact List.mem_cons_of_mem _ (hsucc.2 j e' cc hj1 hjN hdj)

/-- Claim C6 (witness): a healthy immediate dial returns its connection at
once; a cancelled context with a failing dial yields the context's error
with no retry attempt. -/
theorem c6_witness :
    dialRetry ⟨false, none⟩ (fun _ => DialResult.ok 5)
        = (DialOutcome.conn 5, [RetryEvent.attempt 0])
    ∧ dialRetry ⟨true, none⟩ (fun _ => DialResult.fail (GoError.errMsg "refused") none)
        = (DialOutcome.ctxError, [RetryEvent.attempt 0]) :=
  ⟨(c6_dialRetry ⟨false, none⟩ _).1 5 rfl,
   (c6_dialRetry ⟨true, none⟩ _).2.1 rfl rfl⟩

end DOEngine
